import Mathlib

/-!
Verification of the recursive upload-directory synchronizer of
`src/hostgator/deploy-staging.py` and `src/hostgator/fix-mylzip-redirect.py`.

The remote FTP store is modelled as an association list from remote paths
(lists of path segments, relative to the remote root the script `cwd`s into)
to items (a file with its bytes, or a directory marker); a store or mkd
prepends, so later writes shadow earlier ones (FTP STOR overwrites).

The local tree is given as data (`Entry`): a regular file with its bytes, a
directory with its children, or a `special` entry that is neither a regular
file nor a directory (`os.path.isfile` and `os.path.isdir` both false, e.g.
a broken symlink).  Enumeration order of `os.listdir` is the list order.

Every call that can raise in the scripts is governed by an environment
oracle `Env`: `storOk p` says whether `open` + `ftp.storbinary` for the file
stored at remote path `p` completes without raising (this covers unreadable
local files and transfer errors), `mkdOk p` whether `ftp.mkd p` completes
without raising (it raises e.g. when the directory already exists), and the
scalar fields govern connect/login, the initial `cwd` of the remote root,
the `mkd` + retry `cwd` fallback, and the two `ftp.nlst` listing calls.
Local directory enumeration itself is treated as total (the tree is data).
-/

inductive RItem where
  | file (content : List Nat)
  | dir
deriving Repr, DecidableEq

abbrev Remote := List (List String × RItem)

/-- Look a path up in the remote store; the first (most recent) write wins. -/
def lookupR : Remote → List String → Option RItem
  | [], _ => none
  | (q, it) :: rest, p => if q = p then some it else lookupR rest p

/-- Model of `ftp.storbinary` of a file's bytes at remote path `p` (overwrites). -/
def storFile (r : Remote) (p : List String) (c : List Nat) : Remote :=
  (p, RItem.file c) :: r

/-- Model of `ftp.mkd p`: record a directory marker at `p`. -/
def mkDir (r : Remote) (p : List String) : Remote :=
  (p, RItem.dir) :: r

/-- A local directory entry as seen by `os.listdir` plus the
`is_file`/`is_dir` tests: a regular file with content, a directory with
children, or an entry that is neither (broken symlink, socket, ...). -/
inductive Entry where
  | file (name : String) (content : List Nat)
  | dir (name : String) (children : List Entry)
  | special (name : String)
deriving Repr

def entryName : Entry → String
  | .file n _ => n
  | .dir n _ => n
  | .special n => n

/-- Failure oracle for every call of the scripts that can raise. -/
structure Env where
  connectOk : Bool
  cwdRootOk : Bool
  mkdRootOk : Bool
  cwdRootRetryOk : Bool
  listOk : Bool
  listFinalOk : Bool
  localExists : Bool
  mkdOk : List String → Bool
  storOk : List String → Bool

/-- Embedding of `upload_file` of deploy-staging.py (lines 17-27): open the local file
and STOR it; any exception is caught, logged, and reported as `false`. -/
def upload_file (env : Env) (r : Remote) (c : List Nat) (p : List String) :
    Remote × Bool :=
  if env.storOk p then (storFile r p c, true) else (r, false)

/-- The body of `upload_directory` of deploy-staging.py (lines 29-48) after
its `ftp.mkd` has succeeded, together with the recursive traversal: for each
child, files go through `upload_file` (result ignored) and directories
through the `mkd`-guarded recursion (result ignored); entries that are
neither regular files nor directories are skipped.  A child directory whose
`ftp.mkd` raises has the exception caught inside its own
`upload_directory` call: none of its children are visited and the store is
left unchanged there. -/
def uploadList (env : Env) : List String → List Entry → Remote → Remote
  | _, [], r => r
  | base, .file n c :: rest, r =>
      uploadList env base rest
        (if env.storOk (base ++ [n]) then storFile r (base ++ [n]) c else r)
  | base, .dir n cs :: rest, r =>
      uploadList env base rest
        (if env.mkdOk (base ++ [n]) then
          uploadList env (base ++ [n]) cs (mkDir r (base ++ [n]))
        else r)
  | base, .special _ :: rest, r => uploadList env base rest r

/-- Embedding of `upload_directory` of deploy-staging.py (lines 29-48): `ftp.mkd` the
remote directory, then walk the children; an exception anywhere in the
`try` block (in the modelled failure sources: the `mkd` itself) is caught
and answered with `false`, leaving the store unchanged. -/
def upload_directory (env : Env) (r : Remote) (cs : List Entry)
    (p : List String) : Remote × Bool :=
  if env.mkdOk p then
    (uploadList env p cs (mkDir r p), true)
  else (r, false)

structure SyncResult where
  remote : Remote
  succeeded : Nat
  attempted : Nat
deriving Repr

/-- The counting loop of `deploy` (deploy-staging.py lines 90-103):
`total_count += 1` for every entry of the local root; `success_count += 1`
when `upload_file` / `upload_directory` returns `True`; an entry that is
neither a regular file nor a directory gets no upload attempt at all. -/
def deployLoop (env : Env) : List Entry → Remote → SyncResult
  | [], r => ⟨r, 0, 0⟩
  | .file n c :: rest, r =>
      let u := upload_file env r c [n]
      let out := deployLoop env rest u.1
      ⟨out.remote, out.succeeded + (if u.2 then 1 else 0), out.attempted + 1⟩
  | .dir n cs :: rest, r =>
      let u := upload_directory env r cs [n]
      let out := deployLoop env rest u.1
      ⟨out.remote, out.succeeded + (if u.2 then 1 else 0), out.attempted + 1⟩
  | .special _ :: rest, r =>
      let out := deployLoop env rest r
      ⟨out.remote, out.succeeded, out.attempted + 1⟩

/-- The inner loop of fix-mylzip-redirect.py (lines 83-87): the direct
children of a top-level directory are scanned and only regular files are
stored, with no per-file `try`: the first raising store aborts the loop
(the exception is caught at the directory level), keeping the stores made
so far; child directories and special entries are skipped entirely. -/
def fixInner (env : Env) (dn : String) : List Entry → Remote → Remote × Bool
  | [], r => (r, true)
  | .file n c :: rest, r =>
      if env.storOk [dn, n] then fixInner env dn rest (storFile r [dn, n] c)
      else (r, false)
  | .dir _ _ :: rest, r => fixInner env dn rest r
  | .special _ :: rest, r => fixInner env dn rest r

/-- The counting loop of fix-mylzip-redirect.py (lines 64-91): top-level
files are stored under a per-file `try`; a top-level directory is `mkd`-ed
and its direct files uploaded inside one `try`, and `success_count` is
incremented only if that whole block returns without raising. -/
def fixLoop (env : Env) : List Entry → Remote → SyncResult
  | [], r => ⟨r, 0, 0⟩
  | .file n c :: rest, r =>
      if env.storOk [n] then
        let out := fixLoop env rest (storFile r [n] c)
        ⟨out.remote, out.succeeded + 1, out.attempted + 1⟩
      else
        let out := fixLoop env rest r
        ⟨out.remote, out.succeeded, out.attempted + 1⟩
  | .dir n cs :: rest, r =>
      if env.mkdOk [n] then
        let inner := fixInner env n cs (mkDir r [n])
        let out := fixLoop env rest inner.1
        ⟨out.remote, out.succeeded + (if inner.2 then 1 else 0),
          out.attempted + 1⟩
      else
        let out := fixLoop env rest r
        ⟨out.remote, out.succeeded, out.attempted + 1⟩
  | .special _ :: rest, r =>
      let out := fixLoop env rest r
      ⟨out.remote, out.succeeded, out.attempted + 1⟩

/-- Overall outcome of one script run: the boolean the main function
returns, the final remote store, the two counters (0 when the run aborts
before the upload loop), and the cosmetic final `nlst` listing (`none` when
that listing raised — caught and logged only). -/
structure RunResult where
  success : Bool
  remote : Remote
  succeeded : Nat
  attempted : Nat
  listed : Option (List (List String))
deriving Repr

/-- Embedding of `deploy` of deploy-staging.py (lines 50-130): connect/login (an
exception falls to the outer handler: `False`); `cwd` the remote root and,
when that raises, `mkd` it and `cwd` again (lines 64-69) — if the fallback
raises too, the outer handler returns `False`; the first `nlst` is inside
its own `try` and its failure is only logged; a missing local root returns
`False`; then the counting loop runs; the final `nlst` failure is again
only logged; the function returns `True`. -/
def deploy (env : Env) (r0 : Remote) (es : List Entry) : RunResult :=
  if env.connectOk then
    if env.cwdRootOk || (env.mkdRootOk && env.cwdRootRetryOk) then
      if env.localExists then
        let out := deployLoop env es r0
        ⟨true, out.remote, out.succeeded, out.attempted,
          if env.listFinalOk then some (out.remote.map Prod.fst) else none⟩
      else ⟨false, r0, 0, 0, none⟩
    else ⟨false, r0, 0, 0, none⟩
  else ⟨false, r0, 0, 0, none⟩

/-- Embedding of `fix_mylzip_redirect` of fix-mylzip-redirect.py (lines 7-119):
connect/login; a raising `cwd` of the remote root returns `False` at once
(lines 30-34, no `mkd` fallback); a raising initial `nlst` returns `False`
(lines 40-46); a missing local root returns `False`; then the counting
loop runs; the final `nlst` failure is only logged; returns `True`. -/
def fix_mylzip_redirect (env : Env) (r0 : Remote) (es : List Entry) :
    RunResult :=
  if env.connectOk then
    if env.cwdRootOk then
      if env.listOk then
        if env.localExists then
          let out := fixLoop env es r0
          ⟨true, out.remote, out.succeeded, out.attempted,
            if env.listFinalOk then some (out.remote.map Prod.fst) else none⟩
        else ⟨false, r0, 0, 0, none⟩
      else ⟨false, r0, 0, 0, none⟩
    else ⟨false, r0, 0, 0, none⟩
  else ⟨false, r0, 0, 0, none⟩

/-- The `__main__` block of either script: `sys.exit(0)` when the main
function returned `True`, `sys.exit(1)` otherwise. -/
def script_exit (res : RunResult) : Nat :=
  if res.success then 0 else 1

/-- Spec-side count of "direct and nested entries": every file or directory
(or special entry) at any depth, each counted exactly once. -/
def totalEntries : List Entry → Nat
  | [] => 0
  | .file _ _ :: rest => 1 + totalEntries rest
  | .dir _ cs :: rest => 1 + totalEntries cs + totalEntries rest
  | .special _ :: rest => 1 + totalEntries rest

/-- Spec-side tree containment: every file of the local tree is present on
the remote with identical bytes and every directory is present, at any
nesting depth below `base` (the isomorphism of spec §8). -/
def remoteHasEntries (r : Remote) (base : List String) : List Entry → Bool
  | [] => true
  | .file n c :: rest =>
      decide (lookupR r (base ++ [n]) = some (RItem.file c)) &&
        remoteHasEntries r base rest
  | .dir n cs :: rest =>
      decide (lookupR r (base ++ [n]) = some RItem.dir) &&
        remoteHasEntries r (base ++ [n]) cs && remoteHasEntries r base rest
  | .special _ :: rest => remoteHasEntries r base rest

/-- Well-formed local tree: at every level the entry names are distinct,
as `os.listdir` guarantees. -/
def wfEntries : List Entry → Bool
  | [] => true
  | .file n _ :: rest =>
      decide (n ∉ rest.map entryName) && wfEntries rest
  | .special n :: rest =>
      decide (n ∉ rest.map entryName) && wfEntries rest
  | .dir n cs :: rest =>
      decide (n ∉ rest.map entryName) && wfEntries cs && wfEntries rest

/-- No per-item failure: every file store and every directory creation
completes without raising. -/
def allOk (env : Env) : Prop :=
  ∀ p : List String, env.storOk p = true ∧ env.mkdOk p = true

/-- Predicate `Under base p`: the remote path `p` lies at or below `base`. -/
def Under (base p : List String) : Prop := ∃ t, base ++ t = p

/-- Predicate `UnderS base p`: the remote path `p` lies strictly below `base`. -/
def UnderS (base p : List String) : Prop := ∃ t, t ≠ [] ∧ base ++ t = p

/-- An environment with no failure at all. -/
def envAllOk : Env :=
  ⟨true, true, true, true, true, true, true, fun _ => true, fun _ => true⟩

/-- All calls succeed except `ftp.mkd` of remote directory `d` (as when `d`
already exists on the remote). -/
def envNoMkdD : Env :=
  ⟨true, true, true, true, true, true, true,
    fun p => decide (p ≠ (["d"] : List String)), fun _ => true⟩

/-- All calls succeed except the store of the nested file `d/bad` (as when
the local file `d/bad` is unreadable). -/
def envBadNestedFile : Env :=
  ⟨true, true, true, true, true, true, true,
    fun _ => true, fun p => decide (p ≠ (["d", "bad"] : List String))⟩

/-- All calls succeed except the store of the top-level file `bad`. -/
def envBadTopFile : Env :=
  ⟨true, true, true, true, true, true, true,
    fun _ => true, fun p => decide (p ≠ (["bad"] : List String))⟩

/-- The initial `cwd` of the remote root raises, while the `mkd` + retry
fallback would succeed, as would everything else. -/
def envNoCwdRoot : Env :=
  ⟨true, false, true, true, true, true, true, fun _ => true, fun _ => true⟩

/-- The initial `nlst` listing raises; everything else succeeds. -/
def envNoList : Env :=
  ⟨true, true, true, true, false, true, true, fun _ => true, fun _ => true⟩

/-- The scenario tree of spec §8: `{index.html, assets/style.css}`. -/
def treeScenario : List Entry :=
  [Entry.file "index.html" [60, 104], Entry.dir "assets" [Entry.file "style.css" [98]]]

/-- A tree with a subdirectory of a subdirectory: `{a/b/c}`. -/
def treeDeep : List Entry :=
  [Entry.dir "a" [Entry.dir "b" [Entry.file "c" [1]]]]

/-- A directory whose remote creation fails plus a sibling file. -/
def treeMkdFail : List Entry :=
  [Entry.dir "d" [Entry.file "f" [7]], Entry.file "g" [8]]

/-- A tree whose only file is the nested unreadable `d/bad`. -/
def treeBadNested : List Entry := [Entry.dir "d" [Entry.file "bad" [1]]]

/-- A tree with an unreadable top-level file and a readable sibling. -/
def treeBadTop : List Entry := [Entry.file "bad" [1], Entry.file "ok" [2]]

/-- A tree with a special (neither-file-nor-directory) entry and a file. -/
def treeSpecial : List Entry := [Entry.special "dev0", Entry.file "ok" [1]]

lemma under_refl (q : List String) : Under q q := ⟨[], List.append_nil q⟩

lemma under_trans {a b c : List String} (h1 : Under a b) (h2 : Under b c) :
    Under a c := by
  obtain ⟨t1, rfl⟩ := h1
  obtain ⟨t2, rfl⟩ := h2
  exact ⟨t1 ++ t2, (List.append_assoc a t1 t2).symm⟩

lemma under_key {base : List String} {m n : String} {t : List String}
    (h : Under (base ++ [m]) (base ++ [n] ++ t)) : m = n := by
  obtain ⟨s, hs⟩ := h
  rw [List.append_assoc base [m] s, List.append_assoc base [n] t] at hs
  have h2 := List.append_cancel_left hs
  exact (List.cons.injEq m s n t).mp h2 |>.1

lemma not_under_extend (q : List String) (m : String) :
    ¬ Under (q ++ [m]) q := by
  rintro ⟨t, ht⟩
  have := congrArg List.length ht
  simp at this

lemma underS_extend (base : List String) (n : String) :
    UnderS base (base ++ [n]) := ⟨[n], by simp⟩

lemma underS_of_under_extend {base p : List String} {n : String}
    (h : Under (base ++ [n]) p) : UnderS base p := by
  obtain ⟨t, rfl⟩ := h
  exact ⟨[n] ++ t, by simp, by simp⟩

/-- Frame property of the traversal: a remote path that does not lie below
`base ++ [m]` for any entry name `m` of the processed list is untouched. -/
lemma uploadList_frame : ∀ (env : Env) (base : List String) (es : List Entry)
    (r : Remote) (p : List String),
    (∀ m, m ∈ es.map entryName → ¬ Under (base ++ [m]) p) →
    lookupR (uploadList env base es r) p = lookupR r p
  | env, base, [], r, p, _ => by simp only [uploadList]
  | env, base, .file n c :: rest, r, p, h => by
      have hn : ¬ Under (base ++ [n]) p := by
        refine h n ?_
        rw [List.map_cons]
        exact List.mem_cons_self _ _
      have hrest : ∀ m, m ∈ rest.map entryName → ¬ Under (base ++ [m]) p := by
        intro m hm
        refine h m ?_
        rw [List.map_cons]
        exact List.mem_cons_of_mem _ hm
      simp only [uploadList]
      rw [uploadList_frame env base rest _ p hrest]
      by_cases hs : env.storOk (base ++ [n]) = true
      · have hne : (base ++ [n]) ≠ p :=
          fun he => hn (he ▸ under_refl (base ++ [n]))
        simp only [if_pos hs, storFile, lookupR, if_neg hne]
      · simp only [if_neg hs]
  | env, base, .dir n cs :: rest, r, p, h => by
      have hn : ¬ Under (base ++ [n]) p := by
        refine h n ?_
        rw [List.map_cons]
        exact List.mem_cons_self _ _
      have hrest : ∀ m, m ∈ rest.map entryName → ¬ Under (base ++ [m]) p := by
        intro m hm
        refine h m ?_
        rw [List.map_cons]
        exact List.mem_cons_of_mem _ hm
      simp only [uploadList]
      rw [uploadList_frame env base rest _ p hrest]
      by_cases hm : env.mkdOk (base ++ [n]) = true
      · have hcs : ∀ m, m ∈ cs.map entryName →
            ¬ Under (base ++ [n] ++ [m]) p := by
          intro m _ hu
          exact hn (under_trans ⟨[m], rfl⟩ hu)
        have hne : (base ++ [n]) ≠ p :=
          fun he => hn (he ▸ under_refl (base ++ [n]))
        rw [if_pos hm, uploadList_frame env (base ++ [n]) cs _ p hcs]
        simp only [mkDir, lookupR, if_neg hne]
      · simp only [if_neg hm]
  | env, base, .special _ :: rest, r, p, h => by
      have hrest : ∀ m, m ∈ rest.map entryName → ¬ Under (base ++ [m]) p := by
        intro m hm
        refine h m ?_
        rw [List.map_cons]
        exact List.mem_cons_of_mem _ hm
      simp only [uploadList]
      exact uploadList_frame env base rest r p hrest

/-- Tree containment only inspects paths strictly below `base`, so it is
stable under any change of the store that preserves those lookups. -/
lemma remoteHasEntries_stable : ∀ (r r' : Remote) (base : List String)
    (es : List Entry),
    (∀ p, UnderS base p → lookupR r' p = lookupR r p) →
    remoteHasEntries r' base es = remoteHasEntries r base es
  | r, r', base, [], _ => by simp only [remoteHasEntries]
  | r, r', base, .file n c :: rest, h => by
      simp only [remoteHasEntries]
      rw [h (base ++ [n]) (underS_extend base n),
        remoteHasEntries_stable r r' base rest h]
  | r, r', base, .dir n cs :: rest, h => by
      have hcs : ∀ p, UnderS (base ++ [n]) p → lookupR r' p = lookupR r p := by
        intro p hp
        obtain ⟨t, _, ht⟩ := hp
        exact h p (@underS_of_under_extend base p n ⟨t, ht⟩)
      simp only [remoteHasEntries]
      rw [h (base ++ [n]) (underS_extend base n),
        remoteHasEntries_stable r r' base rest h,
        remoteHasEntries_stable r r' (base ++ [n]) cs hcs]
  | r, r', base, .special _ :: rest, h => by
      simp only [remoteHasEntries]
      exact remoteHasEntries_stable r r' base rest h

/-- With no per-item failures and distinct names at every level, the
traversal reproduces the whole local tree below `base` on the remote. -/
lemma uploadList_complete : ∀ (env : Env) (base : List String)
    (es : List Entry) (r : Remote),
    allOk env → wfEntries es = true →
    remoteHasEntries (uploadList env base es r) base es = true
  | env, base, [], r, _, _ => by simp only [remoteHasEntries]
  | env, base, .file n c :: rest, r, hall, hwf => by
      have hn : n ∉ rest.map entryName := by
        simp only [wfEntries, Bool.and_eq_true, decide_eq_true_eq] at hwf
        exact hwf.1
      have hwr : wfEntries rest = true := by
        simp only [wfEntries, Bool.and_eq_true, decide_eq_true_eq] at hwf
        exact hwf.2
      have hframe : ∀ m, m ∈ rest.map entryName →
          ¬ Under (base ++ [m]) (base ++ [n]) := by
        intro m hm hu
        have : m = n := @under_key base m n [] (by rw [List.append_nil]; exact hu)
        exact hn (this ▸ hm)
      simp only [uploadList, if_pos (hall (base ++ [n])).1]
      simp only [remoteHasEntries, Bool.and_eq_true, decide_eq_true_eq]
      refine ⟨?_, uploadList_complete env base rest _ hall hwr⟩
      rw [uploadList_frame env base rest _ (base ++ [n]) hframe]
      simp [storFile, lookupR]
  | env, base, .dir n cs :: rest, r, hall, hwf => by
      have hn : n ∉ rest.map entryName := by
        simp only [wfEntries, Bool.and_eq_true, decide_eq_true_eq] at hwf
        exact hwf.1.1
      have hwc : wfEntries cs = true := by
        simp only [wfEntries, Bool.and_eq_true, decide_eq_true_eq] at hwf
        exact hwf.1.2
      have hwr : wfEntries rest = true := by
        simp only [wfEntries, Bool.and_eq_true, decide_eq_true_eq] at hwf
        exact hwf.2
      have hframe : ∀ m, m ∈ rest.map entryName →
          ¬ Under (base ++ [m]) (base ++ [n]) := by
        intro m hm hu
        have : m = n := @under_key base m n [] (by rw [List.append_nil]; exact hu)
        exact hn (this ▸ hm)
      simp only [uploadList, if_pos (hall (base ++ [n])).2]
      simp only [remoteHasEntries, Bool.and_eq_true, decide_eq_true_eq]
      refine ⟨⟨?_, ?_⟩, uploadList_complete env base rest _ hall hwr⟩
      · rw [uploadList_frame env base rest _ (base ++ [n]) hframe,
          uploadList_frame env (base ++ [n]) cs _ (base ++ [n])
            (fun m _ => not_under_extend (base ++ [n]) m)]
        simp [mkDir, lookupR]
      · have h2 : remoteHasEntries
            (uploadList env (base ++ [n]) cs (mkDir r (base ++ [n])))
            (base ++ [n]) cs = true :=
          uploadList_complete env (base ++ [n]) cs _ hall hwc
        have hstab : ∀ p, UnderS (base ++ [n]) p →
            lookupR (uploadList env base rest
              (uploadList env (base ++ [n]) cs (mkDir r (base ++ [n])))) p =
            lookupR (uploadList env (base ++ [n]) cs
              (mkDir r (base ++ [n]))) p := by
          intro p hp
          refine uploadList_frame env base rest _ p ?_
          intro m hm hu
          obtain ⟨t, _, ht⟩ := hp
          have hmn : m = n := @under_key base m n t (by rw [ht]; exact hu)
          exact hn (hmn ▸ hm)
        rw [remoteHasEntries_stable _ _ (base ++ [n]) cs hstab]
        exact h2
  | env, base, .special n :: rest, r, hall, hwf => by
      have hwr : wfEntries rest = true := by
        simp only [wfEntries, Bool.and_eq_true, decide_eq_true_eq] at hwf
        exact hwf.2
      simp only [uploadList, remoteHasEntries]
      exact uploadList_complete env base rest r hall hwr

/-- The remote effect of the top-level counting loop of deploy-staging.py is
exactly the recursive traversal at the empty base path. -/
lemma deployLoop_remote (env : Env) : ∀ (es : List Entry) (r : Remote),
    (deployLoop env es r).remote = uploadList env [] es r
  | [], r => by simp [deployLoop, uploadList]
  | .file n c :: rest, r => by
      simp only [deployLoop, uploadList, upload_file]
      by_cases h : env.storOk [n] = true
      · simp only [List.nil_append, if_pos h]
        exact deployLoop_remote env rest _
      · simp only [List.nil_append, if_neg h]
        exact deployLoop_remote env rest _
  | .dir n cs :: rest, r => by
      simp only [deployLoop, uploadList, upload_directory]
      by_cases h : env.mkdOk [n] = true
      · simp only [List.nil_append, if_pos h]
        exact deployLoop_remote env rest _
      · simp only [List.nil_append, if_neg h]
        exact deployLoop_remote env rest _
  | .special _ :: rest, r => by
      simp only [deployLoop, uploadList]
      exact deployLoop_remote env rest r

/-- Counter `total_count` of deploy-staging.py counts exactly the top-level entries. -/
lemma deployLoop_attempted (env : Env) : ∀ (es : List Entry) (r : Remote),
    (deployLoop env es r).attempted = es.length
  | [], r => by simp [deployLoop]
  | .file n c :: rest, r => by
      simp only [deployLoop, List.length_cons]
      rw [deployLoop_attempted env rest]
  | .dir n cs :: rest, r => by
      simp only [deployLoop, List.length_cons]
      rw [deployLoop_attempted env rest]
  | .special _ :: rest, r => by
      simp only [deployLoop, List.length_cons]
      rw [deployLoop_attempted env rest]

/-- Counter `total_count` of fix-mylzip-redirect.py counts exactly the top-level
entries. -/
lemma fixLoop_attempted (env : Env) : ∀ (es : List Entry) (r : Remote),
    (fixLoop env es r).attempted = es.length
  | [], r => by simp [fixLoop]
  | .file n c :: rest, r => by
      simp only [fixLoop, List.length_cons]
      by_cases h : env.storOk [n] = true
      · simp only [if_pos h]
        rw [fixLoop_attempted env rest]
      · simp only [if_neg h]
        rw [fixLoop_attempted env rest]
  | .dir n cs :: rest, r => by
      simp only [fixLoop, List.length_cons]
      by_cases h : env.mkdOk [n] = true
      · simp only [if_pos h]
        rw [fixLoop_attempted env rest]
      · simp only [if_neg h]
        rw [fixLoop_attempted env rest]
  | .special _ :: rest, r => by
      simp only [fixLoop, List.length_cons]
      rw [fixLoop_attempted env rest]

/-- Each iteration of the deploy loop adds one to `total_count` and at most
one to `success_count`. -/
lemma deployLoop_le (env : Env) : ∀ (es : List Entry) (r : Remote),
    (deployLoop env es r).succeeded ≤ (deployLoop env es r).attempted
  | [], r => by simp [deployLoop]
  | .file n c :: rest, r => by
      have ih := deployLoop_le env rest (upload_file env r c [n]).1
      simp only [deployLoop]
      by_cases h : (upload_file env r c [n]).2 = true
      · simp only [if_pos h]; omega
      · simp only [if_neg h]; omega
  | .dir n cs :: rest, r => by
      have ih := deployLoop_le env rest (upload_directory env r cs [n]).1
      simp only [deployLoop]
      by_cases h : (upload_directory env r cs [n]).2 = true
      · simp only [if_pos h]; omega
      · simp only [if_neg h]; omega
  | .special _ :: rest, r => by
      have ih := deployLoop_le env rest r
      simp only [deployLoop]
      omega

/-- Each iteration of the fix loop adds one to `total_count` and at most
one to `success_count`. -/
lemma fixLoop_le (env : Env) : ∀ (es : List Entry) (r : Remote),
    (fixLoop env es r).succeeded ≤ (fixLoop env es r).attempted
  | [], r => by simp [fixLoop]
  | .file n c :: rest, r => by
      simp only [fixLoop]
      by_cases h : env.storOk [n] = true
      · have ih := fixLoop_le env rest (storFile r [n] c)
        simp only [if_pos h]; omega
      · have ih := fixLoop_le env rest r
        simp only [if_neg h]; omega
  | .dir n cs :: rest, r => by
      simp only [fixLoop]
      by_cases h : env.mkdOk [n] = true
      · have ih := fixLoop_le env rest (fixInner env n cs (mkDir r [n])).1
        simp only [if_pos h]
        by_cases h2 : (fixInner env n cs (mkDir r [n])).2 = true
        · simp only [if_pos h2]; omega
        · simp only [if_neg h2]; omega
      · have ih := fixLoop_le env rest r
        simp only [if_neg h]; omega
  | .special _ :: rest, r => by
      have ih := fixLoop_le env rest r
      simp only [fixLoop]
      omega

/-- A top-level entry that is neither a regular file nor a directory makes
`success_count` fall strictly short of `total_count` in the deploy loop. -/
lemma deployLoop_lt_of_special (env : Env) : ∀ (es : List Entry) (r : Remote)
    (n : String), Entry.special n ∈ es →
    (deployLoop env es r).succeeded < (deployLoop env es r).attempted
  | .file m c :: rest, r, n, hmem => by
      have hmem' : Entry.special n ∈ rest := by
        cases hmem with
        | tail _ h => exact h
      have ih := deployLoop_lt_of_special env rest (upload_file env r c [m]).1
        n hmem'
      simp only [deployLoop]
      by_cases h : (upload_file env r c [m]).2 = true
      · simp only [if_pos h]; omega
      · simp only [if_neg h]; omega
  | .dir m cs :: rest, r, n, hmem => by
      have hmem' : Entry.special n ∈ rest := by
        cases hmem with
        | tail _ h => exact h
      have ih := deployLoop_lt_of_special env rest
        (upload_directory env r cs [m]).1 n hmem'
      simp only [deployLoop]
      by_cases h : (upload_directory env r cs [m]).2 = true
      · simp only [if_pos h]; omega
      · simp only [if_neg h]; omega
  | .special m :: rest, r, n, hmem => by
      have hle := deployLoop_le env rest r
      simp only [deployLoop]
      omega

/-- Same for the fix loop of fix-mylzip-redirect.py. -/
lemma fixLoop_lt_of_special (env : Env) : ∀ (es : List Entry) (r : Remote)
    (n : String), Entry.special n ∈ es →
    (fixLoop env es r).succeeded < (fixLoop env es r).attempted
  | .file m c :: rest, r, n, hmem => by
      have hmem' : Entry.special n ∈ rest := by
        cases hmem with
        | tail _ h => exact h
      simp only [fixLoop]
      by_cases h : env.storOk [m] = true
      · have ih := fixLoop_lt_of_special env rest (storFile r [m] c) n hmem'
        simp only [if_pos h]; omega
      · have ih := fixLoop_lt_of_special env rest r n hmem'
        simp only [if_neg h]; omega
  | .dir m cs :: rest, r, n, hmem => by
      have hmem' : Entry.special n ∈ rest := by
        cases hmem with
        | tail _ h => exact h
      simp only [fixLoop]
      by_cases h : env.mkdOk [m] = true
      · have ih := fixLoop_lt_of_special env rest
          (fixInner env m cs (mkDir r [m])).1 n hmem'
        simp only [if_pos h]
        by_cases h2 : (fixInner env m cs (mkDir r [m])).2 = true
        · simp only [if_pos h2]; omega
        · simp only [if_neg h2]; omega
      · have ih := fixLoop_lt_of_special env rest r n hmem'
        simp only [if_neg h]; omega
  | .special m :: rest, r, n, hmem => by
      have hle := fixLoop_le env rest r
      simp only [fixLoop]
      omega

/-- A top-level file whose store raises makes `success_count` fall strictly
short of `total_count` in the deploy loop. -/
lemma deployLoop_lt_of_badfile (env : Env) : ∀ (es : List Entry) (r : Remote)
    (n : String) (c : List Nat), Entry.file n c ∈ es →
    env.storOk [n] = false →
    (deployLoop env es r).succeeded < (deployLoop env es r).attempted
  | .file m c' :: rest, r, n, c, hmem, hs => by
      cases hmem with
      | head =>
          have hu : (upload_file env r c' [m]).2 = false := by
            simp [upload_file, hs]
          have hle := deployLoop_le env rest (upload_file env r c' [m]).1
          simp only [deployLoop, hu]
          simp only [Bool.false_eq_true, if_false]
          omega
      | tail _ hmem' =>
          have ih := deployLoop_lt_of_badfile env rest
            (upload_file env r c' [m]).1 n c hmem' hs
          simp only [deployLoop]
          by_cases h : (upload_file env r c' [m]).2 = true
          · simp only [if_pos h]; omega
          · simp only [if_neg h]; omega
  | .dir m cs :: rest, r, n, c, hmem, hs => by
      have hmem' : Entry.file n c ∈ rest := by
        cases hmem with
        | tail _ h => exact h
      have ih := deployLoop_lt_of_badfile env rest
        (upload_directory env r cs [m]).1 n c hmem' hs
      simp only [deployLoop]
      by_cases h : (upload_directory env r cs [m]).2 = true
      · simp only [if_pos h]; omega
      · simp only [if_neg h]; omega
  | .special m :: rest, r, n, c, hmem, hs => by
      have hmem' : Entry.file n c ∈ rest := by
        cases hmem with
        | tail _ h => exact h
      have ih := deployLoop_lt_of_badfile env rest r n c hmem' hs
      simp only [deployLoop]
      omega


/-- C8: in both scripts, each loop iteration increments `total_count`
exactly once and `success_count` at most once, so the returned counts
always satisfy `succeeded ≤ attempted`, both for the bare loops and for the
whole runs (which report `0/0` when aborting before the loop). -/
theorem C8_succeeded_le_attempted (env : Env) (es : List Entry)
    (r : Remote) (r0 : Remote) :
    (deployLoop env es r).succeeded ≤ (deployLoop env es r).attempted ∧
    (fixLoop env es r).succeeded ≤ (fixLoop env es r).attempted ∧
    (deploy env r0 es).succeeded ≤ (deploy env r0 es).attempted ∧
    (fix_mylzip_redirect env r0 es).succeeded ≤
      (fix_mylzip_redirect env r0 es).attempted := by
  refine ⟨deployLoop_le env es r, fixLoop_le env es r, ?_, ?_⟩
  · simp only [deploy]
    split_ifs <;> first | exact deployLoop_le env es r0 | exact Nat.le_refl 0
  · simp only [fix_mylzip_redirect]
    split_ifs <;> first | exact fixLoop_le env es r0 | exact Nat.le_refl 0

/-- C2 fails as stated: on the spec's own scenario tree
`{index.html, assets/style.css}` with no failures, the deploy loop visits
the nested `style.css` but reports `attempted = 2`, while the number of
direct and nested entries is 3 — only top-level entries are counted. -/
theorem C2_counterexample :
    (deployLoop envAllOk treeScenario []).attempted = 2 ∧
    totalEntries treeScenario = 3 ∧
    (deployLoop envAllOk treeScenario []).attempted ≠ totalEntries treeScenario := by
  refine ⟨?_, ?_, ?_⟩
  · rw [deployLoop_attempted]
    rfl
  · simp [totalEntries, treeScenario]
  · rw [deployLoop_attempted]
    simp [totalEntries, treeScenario]

/-- C2 amended: in both scripts `attempted` equals the number of top-level
entries of the local root (nested entries are visited but not counted). -/
theorem C2_attempted_counts_toplevel (env : Env) (es : List Entry)
    (r : Remote) :
    (deployLoop env es r).attempted = es.length ∧
    (fixLoop env es r).attempted = es.length :=
  ⟨deployLoop_attempted env es r, fixLoop_attempted env es r⟩

/-- C1 fails as stated: the claim covers both scripts, but
fix-mylzip-redirect.py only uploads files one level inside top-level
directories.  On the tree `{a/b/c}` with no per-item failures it reports
success, yet the remote ends with neither the nested directory `a/b` nor
the file `a/b/c`, so the remote tree is not isomorphic to the local one. -/
theorem C1_counterexample :
    (fix_mylzip_redirect envAllOk [] treeDeep).success = true ∧
    lookupR (fix_mylzip_redirect envAllOk [] treeDeep).remote ["a"] =
      some RItem.dir ∧
    lookupR (fix_mylzip_redirect envAllOk [] treeDeep).remote ["a", "b"] =
      none ∧
    lookupR (fix_mylzip_redirect envAllOk [] treeDeep).remote ["a", "b", "c"] =
      none ∧
    remoteHasEntries (fix_mylzip_redirect envAllOk [] treeDeep).remote []
      treeDeep = false := by
  refine ⟨?_, ?_, ?_, ?_, ?_⟩ <;>
    simp [fix_mylzip_redirect, fixLoop, fixInner, envAllOk, treeDeep,
      storFile, mkDir, lookupR, remoteHasEntries]

/-- C1 amended: for deploy-staging.py the property holds at every nesting
depth: with no per-item failures (`allOk`) and distinct names at every
level (as `os.listdir` yields), the loop of `deploy` reproduces every file
(identical bytes) and every directory of the local tree on the remote,
recursing into subdirectories of subdirectories; fix-mylzip-redirect.py
does not recurse below the first level. -/
theorem C1_deploy_produces_isomorphic_tree (env : Env) (es : List Entry)
    (r : Remote) (hall : allOk env) (hwf : wfEntries es = true) :
    remoteHasEntries ((deployLoop env es r).remote) [] es = true := by
  rw [deployLoop_remote]
  exact uploadList_complete env [] es r hall hwf

theorem C1_witness :
    allOk envAllOk ∧ wfEntries treeDeep = true ∧
    remoteHasEntries ((deployLoop envAllOk treeDeep []).remote) []
      treeDeep = true :=
  ⟨fun _ => ⟨rfl, rfl⟩,
   by simp [wfEntries, entryName, treeDeep],
   C1_deploy_produces_isomorphic_tree envAllOk treeDeep []
     (fun _ => ⟨rfl, rfl⟩) (by simp [wfEntries, entryName, treeDeep])⟩

/-- C3 fails as stated: when `ftp.mkd` of a directory raises, the exception
is caught at the `upload_directory` level, so the directory's children are
never enumerated: on `{d/f, g}` with only `mkd d` failing, `d/f` is absent
from the remote even though its store would have succeeded; only the
sibling `g` is uploaded. -/
theorem C3_counterexample :
    envNoMkdD.mkdOk ["d"] = false ∧
    envNoMkdD.storOk ["d", "f"] = true ∧
    lookupR (deployLoop envNoMkdD treeMkdFail []).remote ["d", "f"] = none ∧
    lookupR (deployLoop envNoMkdD treeMkdFail []).remote ["g"] =
      some (RItem.file [8]) := by
  refine ⟨by simp [envNoMkdD], by simp [envNoMkdD], ?_, ?_⟩ <;>
    simp [deployLoop, upload_file, upload_directory, uploadList, envNoMkdD,
      treeMkdFail, storFile, mkDir, lookupR]

/-- C3 amended: a failing remote directory creation is logged and the entry
reported as failed; the store is left unchanged below it (the subtree is
skipped, not recursed into), while traversal continues with the next
sibling entry of the loop. -/
theorem C3_mkd_failure_skips_subtree (env : Env) (r : Remote)
    (cs rest : List Entry) (n : String) (h : env.mkdOk [n] = false) :
    upload_directory env r cs [n] = (r, false) ∧
    deployLoop env (Entry.dir n cs :: rest) r =
      ⟨(deployLoop env rest r).remote, (deployLoop env rest r).succeeded,
        (deployLoop env rest r).attempted + 1⟩ := by
  have hu : upload_directory env r cs [n] = (r, false) := by
    simp [upload_directory, h]
  exact ⟨hu, by simp [deployLoop, hu]⟩

theorem C3_witness :
    envNoMkdD.mkdOk ["d"] = false ∧
    (upload_directory envNoMkdD [] [Entry.file "f" [7]] ["d"] = ([], false) ∧
      deployLoop envNoMkdD (Entry.dir "d" [Entry.file "f" [7]] ::
          [Entry.file "g" [8]]) [] =
        ⟨(deployLoop envNoMkdD [Entry.file "g" [8]] []).remote,
          (deployLoop envNoMkdD [Entry.file "g" [8]] []).succeeded,
          (deployLoop envNoMkdD [Entry.file "g" [8]] []).attempted + 1⟩) :=
  ⟨by simp [envNoMkdD],
   C3_mkd_failure_skips_subtree envNoMkdD [] [Entry.file "f" [7]]
     [Entry.file "g" [8]] "d" (by simp [envNoMkdD])⟩

/-- C4 fails as stated: an unreadable file nested inside a directory is
caught and logged inside `upload_file`, but the parent directory still
counts as succeeded, so the run ends with `succeeded = attempted`, not
`succeeded < attempted`: on `{d/bad}` with only the store of `d/bad`
failing, the result is `{attempted: 1, succeeded: 1}`. -/
theorem C4_counterexample :
    envBadNestedFile.storOk ["d", "bad"] = false ∧
    (deployLoop envBadNestedFile treeBadNested []).succeeded = 1 ∧
    (deployLoop envBadNestedFile treeBadNested []).attempted = 1 := by
  refine ⟨by simp [envBadNestedFile], ?_, ?_⟩ <;>
    simp [deployLoop, upload_file, upload_directory, uploadList,
      envBadNestedFile, treeBadNested, storFile, mkDir]

/-- C4 amended: a failing file never propagates its exception — the loop
still visits every top-level entry (`attempted = es.length`) — and when the
failing file is itself a top-level entry the run ends with
`succeeded < attempted`; only failures of nested files can be absorbed by
their parent directory's success count. -/
theorem C4_toplevel_bad_file_strict (env : Env) (es : List Entry)
    (r : Remote) (n : String) (c : List Nat) (hmem : Entry.file n c ∈ es)
    (hs : env.storOk [n] = false) :
    (deployLoop env es r).succeeded < (deployLoop env es r).attempted ∧
    (deployLoop env es r).attempted = es.length :=
  ⟨deployLoop_lt_of_badfile env es r n c hmem hs,
   deployLoop_attempted env es r⟩

theorem C4_witness :
    Entry.file "bad" [1] ∈ treeBadTop ∧
    envBadTopFile.storOk ["bad"] = false ∧
    ((deployLoop envBadTopFile treeBadTop []).succeeded <
        (deployLoop envBadTopFile treeBadTop []).attempted ∧
      (deployLoop envBadTopFile treeBadTop []).attempted =
        treeBadTop.length) :=
  ⟨by simp [treeBadTop], by simp [envBadTopFile],
   C4_toplevel_bad_file_strict envBadTopFile treeBadTop [] "bad" [1]
     (by simp [treeBadTop]) (by simp [envBadTopFile])⟩

/-- C5 fails as stated: only deploy-staging.py has the create-then-retry
fallback.  fix-mylzip-redirect.py returns failure as soon as the `cwd` of
the remote root raises, even in an environment where the `mkd` + retry
fallback would succeed (as the deploy run in the same environment shows). -/
theorem C5_counterexample :
    envNoCwdRoot.cwdRootOk = false ∧ envNoCwdRoot.mkdRootOk = true ∧
    envNoCwdRoot.cwdRootRetryOk = true ∧
    (fix_mylzip_redirect envNoCwdRoot [] []).success = false ∧
    (deploy envNoCwdRoot [] []).success = true := by
  refine ⟨rfl, rfl, rfl, ?_, ?_⟩ <;>
    simp [fix_mylzip_redirect, deploy, envNoCwdRoot, fixLoop, deployLoop]

/-- C5 amended: when the `cwd` of the remote root raises, deploy-staging.py
attempts `mkd` and retries the `cwd` once, and its run is fatal exactly
when that fallback (or a later gate) fails; fix-mylzip-redirect.py instead
returns failure at once, with no fallback. -/
theorem C5_nav_fallback (env : Env) (r0 : Remote) (es : List Entry)
    (h : env.cwdRootOk = false) :
    ((deploy env r0 es).success =
      (env.connectOk && (env.mkdRootOk && env.cwdRootRetryOk) &&
        env.localExists)) ∧
    (fix_mylzip_redirect env r0 es).success = false := by
  constructor
  · cases hc : env.connectOk <;> cases hm : env.mkdRootOk <;>
      cases hr : env.cwdRootRetryOk <;> cases hl : env.localExists <;>
      simp [deploy, h, hc, hm, hr, hl]
  · cases hc : env.connectOk <;> simp [fix_mylzip_redirect, h, hc]

theorem C5_witness :
    envNoCwdRoot.cwdRootOk = false ∧
    (((deploy envNoCwdRoot [] []).success =
        (envNoCwdRoot.connectOk &&
          (envNoCwdRoot.mkdRootOk && envNoCwdRoot.cwdRootRetryOk) &&
          envNoCwdRoot.localExists)) ∧
      (fix_mylzip_redirect envNoCwdRoot [] []).success = false) :=
  ⟨rfl, C5_nav_fallback envNoCwdRoot [] [] rfl⟩

/-- C6 fails as stated: in fix-mylzip-redirect.py the failure of the
initial `nlst` listing is fatal — the function returns `False` before any
upload is attempted (nothing stored, `attempted = 0`) — so a listing
failure is not always cosmetic. -/
theorem C6_counterexample :
    envNoList.listOk = false ∧
    (fix_mylzip_redirect envNoList [] [Entry.file "a" [1]]).success = false ∧
    (fix_mylzip_redirect envNoList [] [Entry.file "a" [1]]).attempted = 0 ∧
    lookupR (fix_mylzip_redirect envNoList [] [Entry.file "a" [1]]).remote
      ["a"] = none := by
  refine ⟨rfl, ?_, ?_, ?_⟩ <;> simp [fix_mylzip_redirect, envNoList, lookupR]

/-- The traversal only consults `storOk` and `mkdOk` of the environment. -/
lemma uploadList_env_congr (e1 e2 : Env) (hst : e1.storOk = e2.storOk)
    (hmk : e1.mkdOk = e2.mkdOk) : ∀ (base : List String) (es : List Entry)
    (r : Remote), uploadList e1 base es r = uploadList e2 base es r
  | base, [], r => by simp only [uploadList]
  | base, .file n c :: rest, r => by
      simp only [uploadList, hst]
      exact uploadList_env_congr e1 e2 hst hmk base rest _
  | base, .dir n cs :: rest, r => by
      simp only [uploadList, hmk]
      rw [uploadList_env_congr e1 e2 hst hmk (base ++ [n]) cs
        (mkDir r (base ++ [n]))]
      exact uploadList_env_congr e1 e2 hst hmk base rest _
  | base, .special _ :: rest, r => by
      simp only [uploadList]
      exact uploadList_env_congr e1 e2 hst hmk base rest r

/-- The deploy counting loop only consults `storOk` and `mkdOk`. -/
lemma deployLoop_env_congr (e1 e2 : Env) (hst : e1.storOk = e2.storOk)
    (hmk : e1.mkdOk = e2.mkdOk) : ∀ (es : List Entry) (r : Remote),
    deployLoop e1 es r = deployLoop e2 es r
  | [], r => by simp only [deployLoop]
  | .file n c :: rest, r => by
      have hu : upload_file e1 r c [n] = upload_file e2 r c [n] := by
        simp only [upload_file, hst]
      simp only [deployLoop, hu]
      rw [deployLoop_env_congr e1 e2 hst hmk rest _]
  | .dir n cs :: rest, r => by
      have hu : upload_directory e1 r cs [n] = upload_directory e2 r cs [n] := by
        simp only [upload_directory, hmk,
          uploadList_env_congr e1 e2 hst hmk [n] cs (mkDir r [n])]
      simp only [deployLoop, hu]
      rw [deployLoop_env_congr e1 e2 hst hmk rest _]
  | .special _ :: rest, r => by
      simp only [deployLoop]
      rw [deployLoop_env_congr e1 e2 hst hmk rest r]

/-- The fix counting loop only consults `storOk` and `mkdOk`. -/
lemma fixLoop_env_congr (e1 e2 : Env) (hst : e1.storOk = e2.storOk)
    (hmk : e1.mkdOk = e2.mkdOk) : ∀ (es : List Entry) (r : Remote),
    fixLoop e1 es r = fixLoop e2 es r
  | [], r => by simp only [fixLoop]
  | .file n c :: rest, r => by
      simp only [fixLoop, hst]
      rw [fixLoop_env_congr e1 e2 hst hmk rest (storFile r [n] c),
        fixLoop_env_congr e1 e2 hst hmk rest r]
  | .dir n cs :: rest, r => by
      have hi : ∀ (ds : List Entry) (r' : Remote),
          fixInner e1 n ds r' = fixInner e2 n ds r' := by
        intro ds
        induction ds with
        | nil => intro r'; simp only [fixInner]
        | cons d ds ih =>
            intro r'
            cases d <;> simp only [fixInner, hst] <;>
              first
                | (rename_i dn dc
                   by_cases hs : e2.storOk [n, dn] = true
                   · simp only [if_pos hs, ih]
                   · simp only [if_neg hs])
                | exact ih r'
      simp only [fixLoop, hmk, hi]
      rw [fixLoop_env_congr e1 e2 hst hmk rest (fixInner e2 n cs (mkDir r [n])).1,
        fixLoop_env_congr e1 e2 hst hmk rest r]
  | .special _ :: rest, r => by
      simp only [fixLoop]
      rw [fixLoop_env_congr e1 e2 hst hmk rest r]

/-- C6 amended: in deploy-staging.py both `nlst` failures are caught,
logged, and change nothing but the cosmetic listing: success, store and
counters are independent of them; in fix-mylzip-redirect.py this holds for
the final listing only, the initial one being a fatal gate. -/
theorem C6_listing_cosmetic (c cw mk rt l1 l2 l1' l2' le : Bool)
    (mo so : List String → Bool) (r0 : Remote) (es : List Entry) :
    ((deploy (Env.mk c cw mk rt l1 l2 le mo so) r0 es).success =
        (deploy (Env.mk c cw mk rt l1' l2' le mo so) r0 es).success ∧
      (deploy (Env.mk c cw mk rt l1 l2 le mo so) r0 es).remote =
        (deploy (Env.mk c cw mk rt l1' l2' le mo so) r0 es).remote ∧
      (deploy (Env.mk c cw mk rt l1 l2 le mo so) r0 es).succeeded =
        (deploy (Env.mk c cw mk rt l1' l2' le mo so) r0 es).succeeded ∧
      (deploy (Env.mk c cw mk rt l1 l2 le mo so) r0 es).attempted =
        (deploy (Env.mk c cw mk rt l1' l2' le mo so) r0 es).attempted) ∧
    ((fix_mylzip_redirect (Env.mk c cw mk rt l1 l2 le mo so) r0 es).success =
        (fix_mylzip_redirect (Env.mk c cw mk rt l1 l2' le mo so) r0
          es).success ∧
      (fix_mylzip_redirect (Env.mk c cw mk rt l1 l2 le mo so) r0 es).remote =
        (fix_mylzip_redirect (Env.mk c cw mk rt l1 l2' le mo so) r0
          es).remote ∧
      (fix_mylzip_redirect (Env.mk c cw mk rt l1 l2 le mo so) r0
          es).succeeded =
        (fix_mylzip_redirect (Env.mk c cw mk rt l1 l2' le mo so) r0
          es).succeeded ∧
      (fix_mylzip_redirect (Env.mk c cw mk rt l1 l2 le mo so) r0
          es).attempted =
        (fix_mylzip_redirect (Env.mk c cw mk rt l1 l2' le mo so) r0
          es).attempted) := by
  have hd : deployLoop (Env.mk c cw mk rt l1 l2 le mo so) es r0 =
      deployLoop (Env.mk c cw mk rt l1' l2' le mo so) es r0 :=
    deployLoop_env_congr (Env.mk c cw mk rt l1 l2 le mo so)
      (Env.mk c cw mk rt l1' l2' le mo so) rfl rfl es r0
  have hf : fixLoop (Env.mk c cw mk rt l1 l2 le mo so) es r0 =
      fixLoop (Env.mk c cw mk rt l1 l2' le mo so) es r0 :=
    fixLoop_env_congr (Env.mk c cw mk rt l1 l2 le mo so)
      (Env.mk c cw mk rt l1 l2' le mo so) rfl rfl es r0
  constructor
  · simp only [deploy]
    rw [hd]
    split_ifs <;> exact ⟨rfl, rfl, rfl, rfl⟩
  · simp only [fix_mylzip_redirect]
    rw [hf]
    split_ifs <;> exact ⟨rfl, rfl, rfl, rfl⟩

/-- C7: a directory entry of the deploy loop is counted as succeeded
exactly when its own `ftp.mkd` completes (its recursive pass catches every
child failure internally, so it returns without raising): the boolean of
`upload_directory` equals the `mkd` outcome whatever `storOk`/`mkdOk` say
about the children, and the loop's `success_count` for the directory
follows that boolean alone. -/
theorem C7_dir_success_is_own_mkd (env : Env) (r : Remote) (cs : List Entry)
    (p : List String) (n : String) :
    (upload_directory env r cs p).2 = env.mkdOk p ∧
    (deployLoop env [Entry.dir n cs] r).succeeded =
      (if env.mkdOk [n] then 1 else 0) ∧
    (deployLoop env [Entry.dir n cs] r).attempted = 1 := by
  refine ⟨?_, ?_, ?_⟩
  · cases hm : env.mkdOk p <;> simp [upload_directory, hm]
  · cases hm : env.mkdOk [n] <;> simp [deployLoop, upload_directory, hm]
  · simp [deployLoop]

/-- C9 fails as stated: fix-mylzip-redirect.py also exits with code 1 when
the initial remote listing raises — a run in which connection and
navigation succeeded, the local root exists, and no upload call would have
raised (the upload pass never runs). -/
theorem C9_counterexample :
    script_exit (fix_mylzip_redirect envNoList [] []) = 1 ∧
    envNoList.connectOk = true ∧ envNoList.cwdRootOk = true ∧
    envNoList.localExists = true ∧ envNoList.storOk ["a"] = true ∧
    envNoList.mkdOk ["a"] = true ∧ envNoList.listOk = false :=
  ⟨by simp [script_exit, fix_mylzip_redirect, envNoList], rfl, rfl, rfl,
   rfl, rfl, rfl⟩

/-- C9 amended: each script exits 0 exactly when its main function returned
`True`; for deploy-staging.py that is exactly connect ∧ (cwd or fallback) ∧
local root present, while fix-mylzip-redirect.py additionally requires the
initial listing not to raise. -/
theorem C9_exit_code (env : Env) (r0 : Remote) (es : List Entry) :
    (script_exit (deploy env r0 es) = 0 ↔
      (deploy env r0 es).success = true) ∧
    (script_exit (fix_mylzip_redirect env r0 es) = 0 ↔
      (fix_mylzip_redirect env r0 es).success = true) ∧
    ((deploy env r0 es).success =
      (env.connectOk && (env.cwdRootOk || (env.mkdRootOk &&
        env.cwdRootRetryOk)) && env.localExists)) ∧
    ((fix_mylzip_redirect env r0 es).success =
      (env.connectOk && env.cwdRootOk && env.listOk && env.localExists)) := by
  refine ⟨?_, ?_, ?_, ?_⟩
  · cases hs : (deploy env r0 es).success <;> simp [script_exit, hs]
  · cases hs : (fix_mylzip_redirect env r0 es).success <;>
      simp [script_exit, hs]
  · cases hc : env.connectOk <;> cases hw : env.cwdRootOk <;>
      cases hm : env.mkdRootOk <;> cases hr : env.cwdRootRetryOk <;>
      cases hl : env.localExists <;> simp [deploy, hc, hw, hm, hr, hl]
  · cases hc : env.connectOk <;> cases hw : env.cwdRootOk <;>
      cases hli : env.listOk <;> cases hl : env.localExists <;>
      simp [fix_mylzip_redirect, hc, hw, hli, hl]

/-- C10: a top-level entry that is neither a regular file nor a directory
is counted once in `attempted` in both scripts, gets no store and no
directory creation (the store is unchanged by it), is never counted in
`succeeded`, and therefore forces `succeeded < attempted` for the whole
loop whatever happens to the other entries. -/
theorem C10_special_counted_never_succeeds (env : Env) (es : List Entry)
    (r : Remote) (n : String) (hmem : Entry.special n ∈ es) :
    (deployLoop env es r).succeeded < (deployLoop env es r).attempted ∧
    (fixLoop env es r).succeeded < (fixLoop env es r).attempted ∧
    deployLoop env [Entry.special n] r = ⟨r, 0, 1⟩ ∧
    fixLoop env [Entry.special n] r = ⟨r, 0, 1⟩ :=
  ⟨deployLoop_lt_of_special env es r n hmem,
   fixLoop_lt_of_special env es r n hmem,
   by simp [deployLoop], by simp [fixLoop]⟩

theorem C10_witness :
    Entry.special "dev0" ∈ treeSpecial ∧
    ((deployLoop envAllOk treeSpecial []).succeeded <
        (deployLoop envAllOk treeSpecial []).attempted ∧
      (fixLoop envAllOk treeSpecial []).succeeded <
        (fixLoop envAllOk treeSpecial []).attempted ∧
      deployLoop envAllOk [Entry.special "dev0"] [] = ⟨[], 0, 1⟩ ∧
      fixLoop envAllOk [Entry.special "dev0"] [] = ⟨[], 0, 1⟩) :=
  ⟨by simp [treeSpecial],
   C10_special_counted_never_succeeds envAllOk treeSpecial [] "dev0"
     (by simp [treeSpecial])⟩
